import Mathlib

/-!
Verification of the crossbell.js client library (link operations, event-log
matching, link-type encoding, and the IPFS content resolver) against its
natural-language specification.

The definitions below are shallow embeddings of the TypeScript sources:
strings of bytes are `List Nat` (the UTF-8 bytes), chain and network
interactions are oracle functions passed in explicitly, and fallible code
returns `Except Err _`.
-/

namespace Crossbell

/-- The error kinds of the library (spec §7), together with the two
argument-validation errors raised by ethers' `parseBytes32String`. -/
inductive Err where
  | EventNotFound
  | AmbiguousEvent
  | ValueTooLong
  | LengthMismatch
  | InvalidAddress
  | PublishFailed
  | ResolveFailed
  | InvalidUri
  | InvalidBytes32
  | MissingNullTerminator
  deriving DecidableEq, Repr

/-- One emitted event from a transaction receipt, as consumed by the link
operations: its name and the two argument fields the callers read
(`args.linklistId`, `args.characterId`). -/
structure EventRecord where
  name : String
  linklistId : Nat
  characterId : Nat
  deriving DecidableEq, Repr

/-- A confirmed transaction receipt: the ordered event list plus the
transaction hash, as returned by `publicClient.waitForTransactionReceipt` /
`getTransactionReceipt`. -/
structure Receipt where
  logs : List EventRecord
  transactionHash : String
  deriving DecidableEq, Repr

/-- Modelled from the spec: the event-log matcher `parseLog` (imported from
`../../utils` in `src/contract/subcontracts/link.ts`; the utils module is not
among the given sources). Spec §4.2: it filters the events by exact name;
zero matches fail with `EventNotFound`; more than one match fails with
`AmbiguousEvent` unless multiple matches are allowed
(`throwOnMultipleLogsFound: false`, strict being the default), in which case
the first match is selected (spec §9: "`throwOnMultipleLogsFound: false`
then taking the first result"). -/
def parseLog (logs : List EventRecord) (eventName : String)
    (throwOnMultipleLogsFound : Bool) : Except Err EventRecord :=
  match logs.filter (fun e => e.name == eventName) with
  | [] => .error .EventNotFound
  | [e] => .ok e
  | e :: _ :: _ =>
    if throwOnMultipleLogsFound then .error .AmbiguousEvent else .ok e

/-- Embeds `pad(toHex(linkType), { dir: 'right' })` from the viem-based
`LinkContract` (`linkCharacter` and friends): `toHex` yields the UTF-8 bytes
of the string and `pad` right-pads them with zero bytes to 32 bytes, raising
`SizeExceedsPaddingSizeError` when the value is longer than 32 bytes. -/
def encodeLinkType (s : List Nat) : Except Err (List Nat) :=
  if 32 < s.length then .error .ValueTooLong
  else .ok (s ++ List.replicate (32 - s.length) 0)

/-- Embeds `ethers.utils.formatBytes32String(linkType)` from the ethers-based
`LinkContract`: the UTF-8 bytes are rejected when longer than 31 bytes
("bytes32 string must be less than 32 bytes"), otherwise concatenated with
`HashZero` and truncated to 32 bytes, i.e. right-padded with zero bytes. -/
def formatBytes32String (s : List Nat) : Except Err (List Nat) :=
  if 31 < s.length then .error .ValueTooLong
  else .ok (s ++ List.replicate (32 - s.length) 0)

/-- Drops all trailing zero bytes; this is the scan of
`parseBytes32String`'s while loop (`while (data[length - 1] === 0) length--`
followed by `slice(0, length)`). -/
def stripTrailingZeros (l : List Nat) : List Nat :=
  (l.reverse.dropWhile (fun b => b == 0)).reverse

/-- Embeds `ethers.utils.parseBytes32String` as used by
`NoteContract.getNote` on the `linkItemType` field: the input must be exactly
32 bytes, its last byte must be zero ("invalid bytes32 string - no null
terminator"), and the bytes before the trailing zeros are decoded as UTF-8. -/
def parseBytes32String (data : List Nat) : Except Err (List Nat) :=
  if data.length ≠ 32 then .error .InvalidBytes32
  else if data.getD 31 0 ≠ 0 then .error .MissingNullTerminator
  else .ok (stripTrailingZeros data)

/-- The zero-address constant `NIL_ADDRESS` used as the default link-module
`data` payload (imported from the utils module). -/
def NIL_ADDRESS : String := "0x0000000000000000000000000000000000000000"

/-- The argument record passed to
`peripheryContract.write.linkCharactersInBatch`. -/
structure BatchLinkCall where
  fromCharacterId : Nat
  toCharacterIds : List Nat
  toAddresses : List String
  linkType : List Nat
  data : List String
  deriving DecidableEq, Repr

/-- Modelled from the spec: `validateAddress` (imported from `../../utils`,
not among the given sources) fails with `InvalidAddress` when the address is
not well-formed; well-formedness itself is kept abstract as a predicate. -/
def validateAddress (isAddress : String → Bool) (a : String) : Except Err Unit :=
  if isAddress a then .ok () else .error .InvalidAddress

/-- Embeds `LinkContract.linkCharactersInBatch`: every `toAddress` is
validated, the link type is encoded, one periphery call is submitted (the
returned list records the submitted calls in order; `chain` composes
`write` with `waitForTransactionReceipt`), and the receipt is matched for
`LinkCharacter` with `throwOnMultipleLogsFound: false`.  A missing `data`
defaults to one `NIL_ADDRESS` per target character. -/
def linkCharactersInBatch (isAddress : String → Bool)
    (chain : BatchLinkCall → Receipt) (fromCharacterId : Nat)
    (toCharacterIds : List Nat) (toAddresses : List String)
    (linkType : List Nat) (data : Option (List String)) :
    List BatchLinkCall × Except Err (Nat × String) :=
  if toAddresses.all isAddress then
    match encodeLinkType linkType with
    | .error e => ([], .error e)
    | .ok lt =>
      let call : BatchLinkCall :=
        ⟨fromCharacterId, toCharacterIds, toAddresses, lt,
          data.getD (toCharacterIds.map (fun _ => NIL_ADDRESS))⟩
      let receipt := chain call
      ([call],
        match parseLog receipt.logs "LinkCharacter" false with
        | .error e => .error e
        | .ok log => .ok (log.linklistId, receipt.transactionHash))
  else ([], .error .InvalidAddress)

/-- The uniform result envelope (`Result<T, HasTxHash>` in
`src/types/contract.ts`, given as `part_000`): the payload plus a
conditional transaction hash, here an `Option`. -/
structure Res (T : Type) where
  data : T
  transactionHash : Option String
  deriving DecidableEq, Repr

/-- The argument records of the contract write calls embedded below. -/
inductive WriteCall where
  | unlinkCharacter (fromCharacterId toCharacterId : Nat) (linkType : List Nat)
  | unlinkAddress (fromCharacterId : Nat) (ethAddress : String) (linkType : List Nat)
  | unlinkAnyUri (fromCharacterId : Nat) (toUri : String) (linkType : List Nat)
  | unlinkErc721 (fromCharacterId : Nat) (tokenAddress : String) (tokenId : Nat)
      (linkType : List Nat)
  | unlinkNote (fromCharacterId toCharacterId toNoteId : Nat) (linkType : List Nat)
  | unlinkLinklist (fromCharacterId toLinkListId : Nat) (linkType : List Nat)
  | linkErc721 (fromCharacterId : Nat) (tokenAddress : String) (tokenId : Nat)
      (linkType : List Nat) (data : String)
  | linkLinklist (fromCharacterId toLinkListId : Nat) (linkType : List Nat)
      (data : String)
  deriving DecidableEq, Repr

/-- The chain collaborator of the viem-based `LinkContract`: `writeContract`
composes a contract write with `waitForTransactionReceipt`; the remaining
fields are the read endpoints used by the read-only operations. -/
structure ChainIo where
  writeContract : WriteCall → Receipt
  getTransactionReceipt : String → Receipt
  readLinkingCharacterIds : Nat → List Nat → List Nat
  readLinklistUri : Nat → String

/-- Embeds `LinkContract.getLinklistIdByTransaction`: re-fetches the receipt
of the given hash and re-runs the strict `LinkCharacter` match; the returned
envelope carries no transaction hash. -/
def getLinklistIdByTransaction (io : ChainIo) (hash : String) :
    Except Err (Res Nat) :=
  match parseLog (io.getTransactionReceipt hash).logs "LinkCharacter" true with
  | .error e => .error e
  | .ok parser => .ok ⟨parser.linklistId, none⟩

/-- Embeds `LinkContract.getLinkingCharacterIds`: a periphery read with the
encoded link type; the returned envelope carries no transaction hash. -/
def getLinkingCharacterIds (io : ChainIo) (fromCharacterId : Nat)
    (linkType : List Nat) : Except Err (Res (List Nat)) :=
  match encodeLinkType linkType with
  | .error e => .error e
  | .ok lt => .ok ⟨io.readLinkingCharacterIds fromCharacterId lt, none⟩

/-- Embeds `LinkContract.getLinklistUri`: a plain contract read; the
returned envelope carries no transaction hash. -/
def getLinklistUri (io : ChainIo) (fromCharacterId : Nat) : Res String :=
  ⟨io.readLinklistUri fromCharacterId, none⟩

/-- Embeds `LinkContract.unlinkCharacter`: submit, await the receipt, and
return `data: undefined` together with the receipt's transaction hash; no
event is matched. -/
def unlinkCharacter (io : ChainIo) (fromCharacterId toCharacterId : Nat)
    (linkType : List Nat) : Except Err (Res (Option Unit)) :=
  match encodeLinkType linkType with
  | .error e => .error e
  | .ok lt =>
    let receipt := io.writeContract
      (.unlinkCharacter fromCharacterId toCharacterId lt)
    .ok ⟨none, some receipt.transactionHash⟩

/-- Embeds `LinkContract.unlinkAddress` (same submit/await/return shape as
`unlinkCharacter`). -/
def unlinkAddress (io : ChainIo) (fromCharacterId : Nat) (toAddress : String)
    (linkType : List Nat) : Except Err (Res (Option Unit)) :=
  match encodeLinkType linkType with
  | .error e => .error e
  | .ok lt =>
    let receipt := io.writeContract (.unlinkAddress fromCharacterId toAddress lt)
    .ok ⟨none, some receipt.transactionHash⟩

/-- Embeds `LinkContract.unlinkAnyUri`. -/
def unlinkAnyUri (io : ChainIo) (fromCharacterId : Nat) (toUri : String)
    (linkType : List Nat) : Except Err (Res (Option Unit)) :=
  match encodeLinkType linkType with
  | .error e => .error e
  | .ok lt =>
    let receipt := io.writeContract (.unlinkAnyUri fromCharacterId toUri lt)
    .ok ⟨none, some receipt.transactionHash⟩

/-- Embeds `LinkContract.unlinkErc721`. -/
def unlinkErc721 (io : ChainIo) (fromCharacterId : Nat)
    (toContractAddress : String) (toTokenId : Nat) (linkType : List Nat) :
    Except Err (Res (Option Unit)) :=
  match encodeLinkType linkType with
  | .error e => .error e
  | .ok lt =>
    let receipt := io.writeContract
      (.unlinkErc721 fromCharacterId toContractAddress toTokenId lt)
    .ok ⟨none, some receipt.transactionHash⟩

/-- Embeds `LinkContract.unlinkNote`. -/
def unlinkNote (io : ChainIo) (fromCharacterId toCharacterId toNoteId : Nat)
    (linkType : List Nat) : Except Err (Res (Option Unit)) :=
  match encodeLinkType linkType with
  | .error e => .error e
  | .ok lt =>
    let receipt := io.writeContract
      (.unlinkNote fromCharacterId toCharacterId toNoteId lt)
    .ok ⟨none, some receipt.transactionHash⟩

/-- Embeds `LinkContract.unlinkLinklist`. -/
def unlinkLinklist (io : ChainIo) (fromCharacterId toLinklistId : Nat)
    (linkType : List Nat) : Except Err (Res (Option Unit)) :=
  match encodeLinkType linkType with
  | .error e => .error e
  | .ok lt =>
    let receipt := io.writeContract
      (.unlinkLinklist fromCharacterId toLinklistId lt)
    .ok ⟨none, some receipt.transactionHash⟩

/-- Embeds `LinkContract.linkErc721`: submits the `linkERC721` write and
extracts the linklist id by a strict match for the event named
`LinkAnyUri`. -/
def linkErc721 (io : ChainIo) (fromCharacterId : Nat)
    (toContractAddress : String) (toTokenId : Nat) (linkType : List Nat)
    (data : String) : Except Err (Res Nat) :=
  match encodeLinkType linkType with
  | .error e => .error e
  | .ok lt =>
    let receipt := io.writeContract
      (.linkErc721 fromCharacterId toContractAddress toTokenId lt data)
    match parseLog receipt.logs "LinkAnyUri" true with
    | .error e => .error e
    | .ok parser => .ok ⟨parser.linklistId, some receipt.transactionHash⟩

/-- Embeds `LinkContract.linkLinklist`: submits the `linkLinklist` write and
extracts the linklist id by a strict match for the event named
`LinkNote`. -/
def linkLinklist (io : ChainIo) (fromCharacterId toLinkListId : Nat)
    (linkType : List Nat) (data : String) : Except Err (Res Nat) :=
  match encodeLinkType linkType with
  | .error e => .error e
  | .ok lt =>
    let receipt := io.writeContract
      (.linkLinklist fromCharacterId toLinkListId lt data)
    match parseLog receipt.logs "LinkNote" true with
    | .error e => .error e
    | .ok parser => .ok ⟨parser.linklistId, some receipt.transactionHash⟩

/-- A structured metadata object, as far as the resolver inspects it: its
optional semantic `type` tag plus an opaque body. -/
structure Meta where
  type : Option String
  content : String
  deriving DecidableEq, Repr

/-- The content store's upload response (`IpfsResponse`): the returned
url. -/
structure IpfsResponse where
  url : String
  deriving DecidableEq, Repr

/-- Embeds the `async-retry` combinator as configured by `Ipfs`: `f` gives
the outcome of each attempt (indexed from 0); on failure up to `remaining`
further attempts are made. -/
def retryGo (f : Nat → Except Err α) (attempt : Nat) :
    Nat → Except Err α
  | 0 => f attempt
  | r + 1 =>
    match f attempt with
    | .ok a => .ok a
    | .error _ => retryGo f (attempt + 1) r

/-- `retry(fn, { retries })`: one initial attempt plus up to `retries`
retries. -/
def retry (retries : Nat) (f : Nat → Except Err α) : Except Err α :=
  retryGo f 0 retries

/-- Embeds `Ipfs.uploadJson` (`src/ipfs/index.ts`): the POST of the
serialized JSON to the relay, wrapped in `retry(..., { retries: 3 })`.  The
oracle `f` gives the relay's response on each attempt. -/
def uploadJson (f : Nat → Except Err IpfsResponse) : Except Err IpfsResponse :=
  retry 3 f

/-- Embeds `Ipfs.metadataToUri`: upload the metadata, then require the
response url to start with `ipfs://`, else "upload to IPFS failed". -/
def metadataToUri (upload : Meta → Nat → Except Err IpfsResponse) (m : Meta) :
    Except Err String :=
  match uploadJson (upload m) with
  | .error e => .error e
  | .ok res =>
    if res.url.startsWith "ipfs://" then .ok res.url else .error .PublishFailed

/-- The external URI predicates and fetchers consumed by
`Ipfs.uriToMetadata`: `isIpfsUrl` from `@crossbell/ipfs-fetch`,
`isIpfsValidUrl` for `isIpfs.url`, `ipfsFetch` for the gateway fetch of an
ipfs URI, and `parseJson` for `JSON.parse` of a fetched body. -/
structure IpfsEnv where
  isIpfsUrl : String → Bool
  isIpfsValidUrl : String → Bool
  ipfsFetch : String → Except Err String
  parseJson : String → Except Err Meta

/-- Embeds `Ipfs.uriToMetadata` (`src/ipfs/index.ts`): for an ipfs-scheme
URI that fails `isIpfs.url` validation it logs `Wrong IPFS url` and merely
`return`s, so the caller receives `undefined` (`.ok none` here); a valid
ipfs URI is fetched through the gateway and its body JSON-parsed (a parse
failure throws "Failed to parse metadata from uri"); any other URI is
fetched directly, exactly once — the oracle `fetchText` is indexed by
attempt to record that only attempt 0 is ever consulted — and fetch or parse
failures throw "Failed to fetch metadata from uri". -/
def uriToMetadata (env : IpfsEnv) (fetchText : Nat → Except Err String)
    (uri : String) : Except Err (Option Meta) :=
  if env.isIpfsUrl uri then
    if env.isIpfsValidUrl uri then
      match env.ipfsFetch uri with
      | .error e => .error e
      | .ok res =>
        match env.parseJson res with
        | .ok json => .ok (some json)
        | .error _ => .error .ResolveFailed
    else .ok none
  else
    match fetchText 0 with
    | .error _ => .error .ResolveFailed
    | .ok res =>
      match env.parseJson res with
      | .ok json => .ok (some json)
      | .error _ => .error .ResolveFailed

/-- The input of `Ipfs.parseMetadataOrUri`: either an already-resolved URI
string or an in-memory metadata object. -/
inductive MetadataOrUri where
  | uri (u : String)
  | metaObj (m : Meta)
  deriving DecidableEq, Repr

/-- The output of `Ipfs.parseMetadataOrUri`. -/
structure ParsedMetadata where
  metadata : Option Meta
  uri : String
  deriving DecidableEq, Repr

/-- One network interaction against the content store: a fetch of a URI or
an upload of a metadata object. -/
inductive NetCall where
  | fetchUri (u : String)
  | upload (m : Meta)
  deriving DecidableEq, Repr

/-- Embeds `Ipfs.parseMetadataOrUri` (`src/ipfs/index.ts`): the empty string
short-circuits to `{ uri: '', metadata: undefined }`; a URI string is either
resolved via `uriToMetadata` (when `retrieveMetadataIfNeeded`) or passed
through; a metadata object is tagged with the semantic `type` when absent
and uploaded via `metadataToUri`.  Alongside the result, the list of
content-store interactions performed is returned. -/
def parseMetadataOrUri (env : IpfsEnv)
    (fetchText : String → Nat → Except Err String)
    (upload : Meta → Nat → Except Err IpfsResponse) (type : String)
    (metadataOrUri : MetadataOrUri) (retrieveMetadataIfNeeded : Bool) :
    Except Err ParsedMetadata × List NetCall :=
  match metadataOrUri with
  | .uri u =>
    if u = "" then (.ok ⟨none, ""⟩, [])
    else if retrieveMetadataIfNeeded then
      match uriToMetadata env (fetchText u) u with
      | .ok m => (.ok ⟨m, u⟩, [.fetchUri u])
      | .error e => (.error e, [.fetchUri u])
    else (.ok ⟨none, u⟩, [])
  | .metaObj m =>
    let tagged := if m.type.isNone then { m with type := some type } else m
    match metadataToUri upload tagged with
    | .ok u => (.ok ⟨some tagged, u⟩, [.upload tagged])
    | .error e => (.error e, [.upload tagged])

instance {ε α : Type} [DecidableEq ε] [DecidableEq α] :
    DecidableEq (Except ε α) := fun a b =>
  match a, b with
  | .ok x, .ok y =>
    if h : x = y then .isTrue (by rw [h]) else .isFalse (by simp [h])
  | .error x, .error y =>
    if h : x = y then .isTrue (by rw [h]) else .isFalse (by simp [h])
  | .ok _, .error _ => .isFalse (by simp)
  | .error _, .ok _ => .isFalse (by simp)

/-! Helper lemmas about the event matcher. -/

theorem parseLog_filter_nil {logs : List EventRecord} {eventName : String}
    (b : Bool) (h : logs.filter (fun e => e.name == eventName) = []) :
    parseLog logs eventName b = .error .EventNotFound := by
  unfold parseLog
  rw [h]

theorem parseLog_filter_single {logs : List EventRecord} {eventName : String}
    {e : EventRecord} (b : Bool)
    (h : logs.filter (fun e => e.name == eventName) = [e]) :
    parseLog logs eventName b = .ok e := by
  unfold parseLog
  rw [h]

theorem parseLog_filter_multi {logs : List EventRecord} {eventName : String}
    {e e' : EventRecord} {rest : List EventRecord}
    (h : logs.filter (fun e => e.name == eventName) = e :: e' :: rest) :
    parseLog logs eventName true = .error .AmbiguousEvent := by
  unfold parseLog
  rw [h]
  rfl

theorem parseLog_filter_cons_lenient {logs : List EventRecord}
    {eventName : String} {e : EventRecord} {rest : List EventRecord}
    (h : logs.filter (fun e => e.name == eventName) = e :: rest) :
    parseLog logs eventName false = .ok e := by
  unfold parseLog
  rw [h]
  cases rest <;> rfl

theorem parseLog_error_kinds {logs : List EventRecord} {eventName : String}
    {b : Bool} {e : Err} (h : parseLog logs eventName b = .error e) :
    e = .EventNotFound ∨ e = .AmbiguousEvent := by
  unfold parseLog at h
  split at h
  · exact .inl (Except.error.inj h).symm
  · exact absurd h (by simp)
  · split at h
    · exact .inr (Except.error.inj h).symm
    · exact absurd h (by simp)

theorem encodeLinkType_error_kind {s : List Nat} {e : Err}
    (h : encodeLinkType s = .error e) : e = .ValueTooLong := by
  unfold encodeLinkType at h
  split at h
  · exact (Except.error.inj h).symm
  · exact absurd h (by simp)

/-- C1: in strict mode (`throwOnMultipleLogsFound: true`, corresponding to
`allowMultiple: false`, the default), the event-log matcher returns the
unique matching event when exactly one event's name matches, fails with
`EventNotFound` when zero events match, and fails with `AmbiguousEvent` when
more than one event matches. -/
theorem parseLog_strict_mode (logs : List EventRecord) (eventName : String) :
    (logs.filter (fun e => e.name == eventName) = [] →
      parseLog logs eventName true = .error .EventNotFound) ∧
    (∀ e, logs.filter (fun e => e.name == eventName) = [e] →
      parseLog logs eventName true = .ok e) ∧
    (∀ e e' rest, logs.filter (fun e => e.name == eventName) = e :: e' :: rest →
      parseLog logs eventName true = .error .AmbiguousEvent) :=
  ⟨fun h => parseLog_filter_nil true h,
   fun _ h => parseLog_filter_single true h,
   fun _ _ _ h => parseLog_filter_multi h⟩

theorem parseLog_strict_mode_witness :
    parseLog [⟨"LinkCharacter", 42, 0⟩] "LinkCharacter" true =
        .ok ⟨"LinkCharacter", 42, 0⟩ ∧
    parseLog [] "LinkCharacter" true = .error .EventNotFound ∧
    parseLog [⟨"LinkCharacter", 7, 0⟩, ⟨"LinkCharacter", 9, 0⟩]
        "LinkCharacter" true = .error .AmbiguousEvent :=
  ⟨(parseLog_strict_mode [⟨"LinkCharacter", 42, 0⟩] "LinkCharacter").2.1
      ⟨"LinkCharacter", 42, 0⟩ rfl,
   (parseLog_strict_mode [] "LinkCharacter").1 rfl,
   (parseLog_strict_mode [⟨"LinkCharacter", 7, 0⟩, ⟨"LinkCharacter", 9, 0⟩]
      "LinkCharacter").2.2 ⟨"LinkCharacter", 7, 0⟩ ⟨"LinkCharacter", 9, 0⟩
      [] rfl⟩

/-- C2: when the receipt of a batch link contains one or more
`LinkCharacter` events, `linkCharactersInBatch` (matching with multiple
logs allowed) returns the linklist id of the first `LinkCharacter` event in
the receipt's event order together with the receipt's transaction hash. -/
theorem linkCharactersInBatch_first_wins (isAddress : String → Bool)
    (chain : BatchLinkCall → Receipt) (fromCharacterId : Nat)
    (toCharacterIds : List Nat) (toAddresses : List String)
    (linkType lt : List Nat) (data : Option (List String)) (e : EventRecord)
    (rest : List EventRecord) (hAddr : toAddresses.all isAddress = true)
    (hlt : encodeLinkType linkType = .ok lt)
    (hlogs : (chain ⟨fromCharacterId, toCharacterIds, toAddresses, lt,
        data.getD (toCharacterIds.map (fun _ => NIL_ADDRESS))⟩).logs.filter
        (fun ev => ev.name == "LinkCharacter") = e :: rest) :
    (linkCharactersInBatch isAddress chain fromCharacterId toCharacterIds
        toAddresses linkType data).2 =
      .ok (e.linklistId,
        (chain ⟨fromCharacterId, toCharacterIds, toAddresses, lt,
          data.getD (toCharacterIds.map (fun _ => NIL_ADDRESS))⟩).transactionHash) := by
  unfold linkCharactersInBatch
  rw [hAddr, hlt]
  simp only [if_true]
  rw [parseLog_filter_cons_lenient hlogs]

theorem linkCharactersInBatch_first_wins_witness :
    (linkCharactersInBatch (fun _ => true)
        (fun _ => ⟨[⟨"LinkCharacter", 7, 0⟩, ⟨"LinkCharacter", 9, 0⟩], "0xabc"⟩)
        1 [2, 3] [] [102, 111, 108, 108, 111, 119] none).2 =
      .ok (7, "0xabc") :=
  linkCharactersInBatch_first_wins (fun _ => true)
    (fun _ => ⟨[⟨"LinkCharacter", 7, 0⟩, ⟨"LinkCharacter", 9, 0⟩], "0xabc"⟩)
    1 [2, 3] [] [102, 111, 108, 108, 111, 119]
    ([102, 111, 108, 108, 111, 119] ++ List.replicate 26 0) none
    ⟨"LinkCharacter", 7, 0⟩ [⟨"LinkCharacter", 9, 0⟩] rfl rfl rfl

/-! Helper lemmas about the fixed-width link-type codec. -/

theorem getD_replicate_zero (k n : Nat) :
    (List.replicate k (0 : Nat)).getD n 0 = 0 := by
  induction k generalizing n with
  | zero => simp [List.getD]
  | succ k ih =>
    cases n with
    | zero => simp [List.replicate]
    | succ n => simp [List.replicate, ih n]

theorem dropWhile_zeros_append (k : Nat) (t : List Nat) :
    (List.replicate k 0 ++ t).dropWhile (fun b => b == 0) =
      t.dropWhile (fun b => b == 0) := by
  induction k with
  | zero => rfl
  | succ k ih => simp [List.replicate, List.dropWhile, ih]

theorem stripTrailingZeros_pad (s : List Nat) (k : Nat)
    (hlast : s.getLast? ≠ some 0) :
    stripTrailingZeros (s ++ List.replicate k 0) = s := by
  unfold stripTrailingZeros
  rw [List.reverse_append, List.reverse_replicate, dropWhile_zeros_append]
  have hrev : s.reverse.dropWhile (fun b => b == 0) = s.reverse := by
    cases hs : s.reverse with
    | nil => rfl
    | cons a t =>
      have ha : s.getLast? = some a := by
        rw [← List.head?_reverse, hs]
        rfl
      have : (a == 0) = false := by
        rcases eq_or_ne a 0 with h0 | h0
        · exact absurd (h0 ▸ ha) hlast
        · simpa using h0
      simp [List.dropWhile, this]
  rw [hrev, List.reverse_reverse]

/-- C3 counterexample: round-tripping through the fixed-width codec is not
the identity on all strings of UTF-8 byte length at most 32.  The one-byte
string `"\x00"` (bytes `[0]`) encodes and then decodes to the empty string,
and a 32-byte string (32 times `'a'`) encodes under viem's right-pad but is
rejected by `parseBytes32String` for lacking a null terminator. -/
theorem encode_decode_not_identity :
    ([0] : List Nat).length ≤ 32 ∧
    (encodeLinkType [0]).bind parseBytes32String = .ok [] ∧
    (encodeLinkType [0]).bind parseBytes32String ≠ .ok [0] ∧
    (List.replicate 32 97).length ≤ 32 ∧
    (encodeLinkType (List.replicate 32 97)).bind parseBytes32String =
      .error .MissingNullTerminator := by
  refine ⟨by decide, rfl, ?_, by decide, rfl⟩
  decide

/-- C3 amended: decoding the encoding is the identity exactly on the domain
accepted by both ends of the codec — strings of UTF-8 byte length at most
31 (the decoder demands a null terminator in byte 31) whose last byte is
not zero (the decoder strips all trailing zero bytes). -/
theorem encode_decode_roundtrip (s : List Nat) (hlen : s.length ≤ 31)
    (hlast : s.getLast? ≠ some 0) :
    (encodeLinkType s).bind parseBytes32String = .ok s := by
  have h32 : ¬ 32 < s.length := by omega
  unfold encodeLinkType
  rw [if_neg h32]
  show parseBytes32String (s ++ List.replicate (32 - s.length) 0) = .ok s
  have hfull : (s ++ List.replicate (32 - s.length) 0).length = 32 := by
    simp only [List.length_append, List.length_replicate]
    omega
  have hterm : (s ++ List.replicate (32 - s.length) 0).getD 31 0 = 0 := by
    rw [List.getD_append_right _ _ _ _ (by omega)]
    exact getD_replicate_zero _ _
  have hterm2 : ¬(s ++ List.replicate (32 - s.length) 0).getD 31 0 ≠ 0 := by
    rw [hterm]
    simp
  have hfull2 : ¬(s ++ List.replicate (32 - s.length) 0).length ≠ 32 := by
    rw [hfull]
    simp
  unfold parseBytes32String
  rw [if_neg hfull2, if_neg hterm2, stripTrailingZeros_pad s _ hlast]

theorem encode_decode_roundtrip_witness :
    (encodeLinkType [102, 111, 108, 108, 111, 119]).bind parseBytes32String =
      .ok [102, 111, 108, 108, 111, 119] :=
  encode_decode_roundtrip [102, 111, 108, 108, 111, 119] (by decide) (by decide)

/-- C4 counterexample: the ethers-based link-type encoder
(`formatBytes32String`, used by the ethers-era `LinkContract`) rejects a
string of UTF-8 byte length exactly 32, although the claim says strings of
byte length at most 32 encode successfully. -/
theorem formatBytes32String_rejects_len32 :
    (List.replicate 32 97).length ≤ 32 ∧
    formatBytes32String (List.replicate 32 97) = .error .ValueTooLong :=
  ⟨by decide, rfl⟩

/-- C4 amended: the viem-based encoder (`pad(toHex(s), { dir: 'right' })`)
fails with the length error exactly when the byte length exceeds 32, and
otherwise right-pads to 32 bytes without truncating; the ethers-based
encoder (`formatBytes32String`) fails exactly when the byte length exceeds
31, and otherwise also right-pads to 32 bytes without truncating. -/
theorem link_type_encoder_bounds (s : List Nat) :
    (encodeLinkType s = .error .ValueTooLong ↔ 32 < s.length) ∧
    (∀ b, encodeLinkType s = .ok b → b.take s.length = s ∧ b.length = 32) ∧
    (formatBytes32String s = .error .ValueTooLong ↔ 31 < s.length) ∧
    (∀ b, formatBytes32String s = .ok b → b.take s.length = s ∧ b.length = 32) := by
  unfold encodeLinkType formatBytes32String
  refine ⟨?_, ?_, ?_, ?_⟩
  · split <;> simp_all
  · intro b hb
    split at hb
    · exact absurd hb (by simp)
    · rename_i hc
      cases hb
      constructor
      · exact List.take_left s _
      · simp only [List.length_append, List.length_replicate]
        omega
  · split <;> simp_all
  · intro b hb
    split at hb
    · exact absurd hb (by simp)
    · rename_i hc
      cases hb
      constructor
      · exact List.take_left s _
      · simp only [List.length_append, List.length_replicate]
        omega

theorem link_type_encoder_bounds_witness :
    ([102] ++ List.replicate 31 0).take 1 = [102] ∧
    ([102] ++ List.replicate 31 0).length = 32 :=
  (link_type_encoder_bounds [102]).2.1 ([102] ++ List.replicate 31 0) rfl

/-- C5: on the empty-string input, `parseMetadataOrUri` short-circuits to
`{ uri: '', metadata: undefined }` and performs no upload or fetch against
the content store, whatever the retrieve-if-uri flag and whatever the
content store would answer. -/
theorem parseMetadataOrUri_empty_string (env : IpfsEnv)
    (fetchText : String → Nat → Except Err String)
    (upload : Meta → Nat → Except Err IpfsResponse) (type : String)
    (retrieveMetadataIfNeeded : Bool) :
    parseMetadataOrUri env fetchText upload type (.uri "")
        retrieveMetadataIfNeeded = (.ok ⟨none, ""⟩, []) := rfl

/-! Helper lemmas about the retry combinator. -/

theorem retryGo_ok_iff (f : Nat → Except Err α) (a r : Nat) :
    (∃ v, retryGo f a r = .ok v) ↔
      ∃ i, a ≤ i ∧ i ≤ a + r ∧ ∃ v, f i = .ok v := by
  induction r generalizing a with
  | zero =>
    simp only [retryGo]
    constructor
    · rintro ⟨v, hv⟩
      exact ⟨a, le_rfl, by omega, v, hv⟩
    · rintro ⟨i, h1, h2, v, hv⟩
      have : i = a := by omega
      subst this
      exact ⟨v, hv⟩
  | succ r ih =>
    constructor
    · rintro ⟨v, hv⟩
      unfold retryGo at hv
      cases hfa : f a with
      | ok w => exact ⟨a, le_rfl, by omega, w, hfa⟩
      | error e =>
        rw [hfa] at hv
        obtain ⟨i, h1, h2, w, hw⟩ := (ih (a + 1)).mp ⟨v, hv⟩
        exact ⟨i, by omega, by omega, w, hw⟩
    · rintro ⟨i, h1, h2, v, hv⟩
      unfold retryGo
      cases hfa : f a with
      | ok w => exact ⟨w, rfl⟩
      | error e =>
        refine (ih (a + 1)).mpr ⟨i, ?_, by omega, v, hv⟩
        rcases Nat.lt_or_ge a i with h | h
        · omega
        · have : i = a := by omega
          subst this
          rw [hfa] at hv
          exact absurd hv (by simp)

/-- C7 counterexample: the two content-store operations are not retried up
to the same bound of 3 attempts.  The upload succeeds against a relay that
fails on attempts 0, 1 and 2 (so a fourth attempt was made), while the
fetch of `uriToMetadata` fails against a server that fails only on attempt
0 (so no second attempt was ever made). -/
theorem retry_bounds_differ :
    uploadJson (fun n => if n = 3 then .ok ⟨"ipfs://u"⟩
        else .error .PublishFailed) = .ok ⟨"ipfs://u"⟩ ∧
    uriToMetadata ⟨fun _ => false, fun _ => false, fun u => .ok u,
        fun s => .ok ⟨none, s⟩⟩
      (fun n => if n = 0 then .error .ResolveFailed else .ok "ok")
      "https://example.com/metadata.json" = .error .ResolveFailed :=
  ⟨rfl, rfl⟩

/-- C7 amended: the upload of `uploadJson` is retried with bound
`{ retries: 3 }` — it succeeds exactly when one of attempts 0 to 3 succeeds
(up to 4 attempts in total) — while the fetch of `uriToMetadata` is not
retried at all: a single attempt is made and its failure is surfaced
immediately, whatever later attempts would have returned. -/
theorem upload_retried_fetch_not (env : IpfsEnv)
    (g : Nat → Except Err String) (uri : String) (e : Err)
    (hscheme : env.isIpfsUrl uri = false) (hg : g 0 = .error e) :
    (∀ f : Nat → Except Err IpfsResponse,
      (∃ r, uploadJson f = .ok r) ↔ ∃ i, i ≤ 3 ∧ ∃ r, f i = .ok r) ∧
    uriToMetadata env g uri = .error .ResolveFailed := by
  constructor
  · intro f
    rw [show uploadJson f = retryGo f 0 3 from rfl, retryGo_ok_iff]
    constructor
    · rintro ⟨i, _, h2, v, hv⟩
      exact ⟨i, by omega, v, hv⟩
    · rintro ⟨i, h2, v, hv⟩
      exact ⟨i, by omega, by omega, v, hv⟩
  · unfold uriToMetadata
    rw [hscheme]
    simp only [Bool.false_eq_true, if_false, hg]

theorem upload_retried_fetch_not_witness :
    uriToMetadata ⟨fun _ => false, fun _ => false, fun u => .ok u,
        fun s => .ok ⟨none, s⟩⟩ (fun _ => .error .ResolveFailed)
      "https://example.com/metadata.json" = .error .ResolveFailed :=
  (upload_retried_fetch_not ⟨fun _ => false, fun _ => false, fun u => .ok u,
      fun s => .ok ⟨none, s⟩⟩ (fun _ => .error .ResolveFailed)
    "https://example.com/metadata.json" .ResolveFailed rfl rfl).2

/-- C8 counterexample: on a URI whose ipfs scheme is recognized but which
fails validation, `uriToMetadata` does not raise any error: it logs and
returns `undefined` to the caller (silently). -/
theorem uriToMetadata_silent_on_malformed :
    uriToMetadata ⟨fun u => u == "ipfs://badcid", fun _ => false,
        fun u => .ok u, fun s => .ok ⟨none, s⟩⟩
      (fun _ => .ok "body") "ipfs://badcid" = .ok none := rfl

/-- C8 amended: `uriToMetadata` resolves to `undefined` without raising any
error precisely on the recognized-but-malformed ipfs URIs (the
`Wrong IPFS url` branch); every other failure path of the function does
surface an error. -/
theorem uriToMetadata_ok_none_iff (env : IpfsEnv)
    (g : Nat → Except Err String) (uri : String) :
    uriToMetadata env g uri = .ok none ↔
      env.isIpfsUrl uri = true ∧ env.isIpfsValidUrl uri = false := by
  unfold uriToMetadata
  cases h1 : env.isIpfsUrl uri with
  | false =>
    cases hg : g 0 with
    | error e => simp [hg]
    | ok res =>
      cases hp : env.parseJson res with
      | ok j => simp [hg, hp]
      | error e => simp [hg, hp]
  | true =>
    cases h2 : env.isIpfsValidUrl uri with
    | false => simp
    | true =>
      cases hf : env.ipfsFetch uri with
      | error e => simp [hf]
      | ok res =>
        cases hp : env.parseJson res with
        | ok j => simp [hf, hp]
        | error e => simp [hf, hp]

/-- C6 counterexample: a batch link whose `data` list is shorter than the
target list (2 entries against 3 target characters) does not fail with
`LengthMismatch`: the call is submitted to the chain client carrying the
mismatched `data` unchanged. -/
theorem linkBatch_mismatched_data_submitted :
    (linkCharactersInBatch (fun _ => true) (fun _ => ⟨[], "0xh"⟩) 1 [1, 2, 3]
        [] [102] (some ["0xa", "0xb"])).1 =
      [⟨1, [1, 2, 3], [], [102] ++ List.replicate 31 0, ["0xa", "0xb"]⟩] ∧
    (linkCharactersInBatch (fun _ => true) (fun _ => ⟨[], "0xh"⟩) 1 [1, 2, 3]
        [] [102] (some ["0xa", "0xb"])).2 ≠ .error .LengthMismatch :=
  ⟨rfl, by decide⟩

/-- C6 amended: `linkCharactersInBatch` performs no length validation on
`data`: no run of the operation ever fails with `LengthMismatch`, and
whenever the addresses validate and the link type encodes, exactly one call
is submitted and it carries the supplied `data` unchanged, even when its
length differs from the target list's. -/
theorem linkBatch_no_length_validation (isAddress : String → Bool)
    (chain : BatchLinkCall → Receipt) (fromCharacterId : Nat)
    (toCharacterIds : List Nat) (toAddresses : List String)
    (linkType lt : List Nat) (dataList : List String)
    (hAddr : toAddresses.all isAddress = true)
    (hlt : encodeLinkType linkType = .ok lt)
    (hmismatch : dataList.length ≠ toCharacterIds.length) :
    (∀ (isA : String → Bool) (ch : BatchLinkCall → Receipt) (f : Nat)
        (tc : List Nat) (ta : List String) (l : List Nat)
        (d : Option (List String)),
      (linkCharactersInBatch isA ch f tc ta l d).2 ≠ .error .LengthMismatch) ∧
    (linkCharactersInBatch isAddress chain fromCharacterId toCharacterIds
        toAddresses linkType (some dataList)).1 =
      [⟨fromCharacterId, toCharacterIds, toAddresses, lt, dataList⟩] := by
  constructor
  · intro isA ch f tc ta l d
    unfold linkCharactersInBatch
    split
    · cases hl : encodeLinkType l with
      | error e =>
        have := encodeLinkType_error_kind hl
        subst this
        simp
      | ok lt' =>
        simp only []
        cases hp : parseLog (ch ⟨f, tc, ta, lt',
            d.getD (tc.map (fun _ => NIL_ADDRESS))⟩).logs "LinkCharacter" false with
        | error e =>
          rcases parseLog_error_kinds hp with h | h <;> subst h <;> simp [hp]
        | ok log => simp [hp]
    · simp
  · unfold linkCharactersInBatch
    rw [hAddr, hlt]
    rfl

theorem linkBatch_no_length_validation_witness :
    (linkCharactersInBatch (fun _ => true) (fun _ => ⟨[], "0xh"⟩) 1 [1, 2, 3]
        [] [102] (some ["0xa", "0xb"])).1 =
      [⟨1, [1, 2, 3], [], [102] ++ List.replicate 31 0, ["0xa", "0xb"]⟩] :=
  (linkBatch_no_length_validation (fun _ => true) (fun _ => ⟨[], "0xh"⟩) 1
    [1, 2, 3] [] [102] ([102] ++ List.replicate 31 0) ["0xa", "0xb"]
    rfl rfl (by decide)).2

/-- C9: the result envelope invariant — the read-only operations
(`getLinklistIdByTransaction`, `getLinkingCharacterIds`, `getLinklistUri`)
never carry a transaction hash, while every unlink variant, whose
caller-visible payload is `undefined`, always carries the receipt's
transaction hash. -/
theorem result_envelope_invariant (io : ChainIo) (hash addr uri : String)
    (cid cid2 nid tid lid : Nat) (linkType lt : List Nat)
    (hlt : encodeLinkType linkType = .ok lt) :
    (∀ r, getLinklistIdByTransaction io hash = .ok r →
      r.transactionHash = none) ∧
    (∀ r, getLinkingCharacterIds io cid linkType = .ok r →
      r.transactionHash = none) ∧
    (getLinklistUri io cid).transactionHash = none ∧
    unlinkCharacter io cid cid2 linkType = .ok ⟨none,
      some ((io.writeContract (.unlinkCharacter cid cid2 lt)).transactionHash)⟩ ∧
    unlinkAddress io cid addr linkType = .ok ⟨none,
      some ((io.writeContract (.unlinkAddress cid addr lt)).transactionHash)⟩ ∧
    unlinkAnyUri io cid uri linkType = .ok ⟨none,
      some ((io.writeContract (.unlinkAnyUri cid uri lt)).transactionHash)⟩ ∧
    unlinkErc721 io cid addr tid linkType = .ok ⟨none,
      some ((io.writeContract (.unlinkErc721 cid addr tid lt)).transactionHash)⟩ ∧
    unlinkNote io cid cid2 nid linkType = .ok ⟨none,
      some ((io.writeContract (.unlinkNote cid cid2 nid lt)).transactionHash)⟩ ∧
    unlinkLinklist io cid lid linkType = .ok ⟨none,
      some ((io.writeContract (.unlinkLinklist cid lid lt)).transactionHash)⟩ := by
  refine ⟨?_, ?_, rfl, ?_, ?_, ?_, ?_, ?_, ?_⟩
  · intro r h
    unfold getLinklistIdByTransaction at h
    cases hp : parseLog (io.getTransactionReceipt hash).logs "LinkCharacter"
        true with
    | error e => rw [hp] at h; exact absurd h (by simp)
    | ok p => rw [hp] at h; cases h; rfl
  · intro r h
    unfold getLinkingCharacterIds at h
    rw [hlt] at h
    cases h
    rfl
  all_goals
    simp only [unlinkCharacter, unlinkAddress, unlinkAnyUri, unlinkErc721,
      unlinkNote, unlinkLinklist, hlt]

theorem result_envelope_invariant_witness :
    unlinkCharacter ⟨fun _ => ⟨[], "0xw"⟩, fun _ => ⟨[], "0xr"⟩,
        fun _ _ => [], fun _ => "u"⟩ 1 2 [102] =
      .ok ⟨none, some "0xw"⟩ :=
  (result_envelope_invariant ⟨fun _ => ⟨[], "0xw"⟩, fun _ => ⟨[], "0xr"⟩,
      fun _ _ => [], fun _ => "u"⟩ "0xt" "0xaddr" "uri://x" 1 2 3 4 5 [102]
    ([102] ++ List.replicate 31 0) rfl).2.2.2.1

/-- C10: `linkErc721` extracts its linklist id by matching the event named
`LinkAnyUri` and `linkLinklist` by matching the event named `LinkNote`;
consequently a receipt whose only link event carries any other name (for
example an ERC-721- or linklist-specific one) makes them fail with
`EventNotFound`. -/
theorem linkErc721_linkLinklist_event_names (io : ChainIo)
    (cid tid lid : Nat) (addr dataStr : String) (linkType lt : List Nat)
    (hlt : encodeLinkType linkType = .ok lt) :
    ((io.writeContract (.linkErc721 cid addr tid lt dataStr)).logs.filter
        (fun ev => ev.name == "LinkAnyUri") = [] →
      linkErc721 io cid addr tid linkType dataStr = .error .EventNotFound) ∧
    (∀ e, (io.writeContract (.linkErc721 cid addr tid lt dataStr)).logs.filter
        (fun ev => ev.name == "LinkAnyUri") = [e] →
      linkErc721 io cid addr tid linkType dataStr = .ok ⟨e.linklistId,
        some ((io.writeContract (.linkErc721 cid addr tid lt dataStr)).transactionHash)⟩) ∧
    ((io.writeContract (.linkLinklist cid lid lt dataStr)).logs.filter
        (fun ev => ev.name == "LinkNote") = [] →
      linkLinklist io cid lid linkType dataStr = .error .EventNotFound) ∧
    (∀ e, (io.writeContract (.linkLinklist cid lid lt dataStr)).logs.filter
        (fun ev => ev.name == "LinkNote") = [e] →
      linkLinklist io cid lid linkType dataStr = .ok ⟨e.linklistId,
        some ((io.writeContract (.linkLinklist cid lid lt dataStr)).transactionHash)⟩) := by
  refine ⟨?_, ?_, ?_, ?_⟩
  · intro h
    simp only [linkErc721, hlt]
    rw [parseLog_filter_nil true h]
  · intro e h
    simp only [linkErc721, hlt]
    rw [parseLog_filter_single true h]
  · intro h
    simp only [linkLinklist, hlt]
    rw [parseLog_filter_nil true h]
  · intro e h
    simp only [linkLinklist, hlt]
    rw [parseLog_filter_single true h]

theorem linkErc721_linkLinklist_event_names_witness :
    linkErc721 ⟨fun c => match c with
        | .linkErc721 _ _ _ _ _ => ⟨[⟨"LinkERC721", 5, 0⟩], "0xe"⟩
        | _ => ⟨[⟨"LinkLinklist", 6, 0⟩], "0xl"⟩,
      fun _ => ⟨[], "0xr"⟩, fun _ _ => [], fun _ => "u"⟩ 1 "0xc" 9 [102]
      "0xd" = .error .EventNotFound ∧
    linkLinklist ⟨fun c => match c with
        | .linkErc721 _ _ _ _ _ => ⟨[⟨"LinkERC721", 5, 0⟩], "0xe"⟩
        | _ => ⟨[⟨"LinkLinklist", 6, 0⟩], "0xl"⟩,
      fun _ => ⟨[], "0xr"⟩, fun _ _ => [], fun _ => "u"⟩ 1 7 [102]
      "0xd" = .error .EventNotFound :=
  ⟨(linkErc721_linkLinklist_event_names ⟨fun c => match c with
        | .linkErc721 _ _ _ _ _ => ⟨[⟨"LinkERC721", 5, 0⟩], "0xe"⟩
        | _ => ⟨[⟨"LinkLinklist", 6, 0⟩], "0xl"⟩,
      fun _ => ⟨[], "0xr"⟩, fun _ _ => [], fun _ => "u"⟩ 1 9 7 "0xc" "0xd"
      [102] ([102] ++ List.replicate 31 0) rfl).1 rfl,
   (linkErc721_linkLinklist_event_names ⟨fun c => match c with
        | .linkErc721 _ _ _ _ _ => ⟨[⟨"LinkERC721", 5, 0⟩], "0xe"⟩
        | _ => ⟨[⟨"LinkLinklist", 6, 0⟩], "0xl"⟩,
      fun _ => ⟨[], "0xr"⟩, fun _ _ => [], fun _ => "u"⟩ 1 9 7 "0xc" "0xd"
      [102] ([102] ++ List.replicate 31 0) rfl).2.2.1 rfl⟩

end Crossbell






